import Mathlib

/-!
# Verification of the awsesh identity-broker core

A shallow embedding of the awsesh source (Go) into Lean 4, together with
theorems settling the specification claims about it.

Conventions of the embedding:
* Instants are natural numbers counting nanoseconds, matching Go's
  `time.Time` granularity.  RFC 3339 serialization of an instant keeps whole
  seconds only; it is modelled by the second count (`t / nsPerSec`), which is
  injective on whole-second instants exactly as the textual form is.
* INI files (`gopkg.in/ini.v1`) are modelled as ordered lists of sections,
  each an ordered association list of string keys and values.  `NewSection`
  returns the existing section when the name is already present (as in
  go-ini), `Key(k).SetValue(v)` upserts preserving order, and
  `Key(k).String()` of a missing key is `""`.
* Disk contents are threaded explicitly: a file that may be missing is an
  `Option`; every save rewrites the whole file (`SaveTo`).
* The Bubble Tea runtime is modelled by a `Model` record holding the fields
  the claims concern, a message type mirroring the `tea.Msg` variants, and a
  command type mirroring the `tea.Cmd` values the handlers return.
-/

namespace Awsesh

/-- Nanoseconds per second, the granularity of Go `time.Time`. -/
def nsPerSec : Nat := 1000000000

/-- Number of nanoseconds in `h` hours. -/
def hoursNs (h : Nat) : Nat := h * 3600 * nsPerSec

/-- Number of nanoseconds in `m` minutes. -/
def minutesNs (m : Nat) : Nat := m * 60 * nsPerSec

/-- RFC 3339 rendering keeps whole seconds: the instant actually stored for
`t` is `t` truncated down to a whole second (main.go uses
`expiresAt.Format(time.RFC3339)` and `time.Parse(time.RFC3339, s)`). -/
def truncToSecond (t : Nat) : Nat := t / nsPerSec * nsPerSec

/-! ## INI file model (gopkg.in/ini.v1 as used by config/config.go) -/

/-- One section of an INI file: its name and its ordered key/value pairs. -/
structure IniSection where
  name : String
  keys : List (String × String)
  deriving Repr, DecidableEq

/-- An INI file is an ordered list of sections (the unnamed default section
is never used by awsesh and is omitted). -/
abbrev IniFile := List IniSection

/-- go-ini `File.GetSection`: the first section with the given name. -/
def iniGetSection (f : IniFile) (name : String) : Option IniSection :=
  f.find? (fun s => s.name = name)

/-- go-ini `Section.Key(k).String()`: value of the first binding of `k`,
`""` when the key is missing. -/
def sectionGet (s : IniSection) (k : String) : String :=
  match s.keys.find? (fun kv => kv.1 = k) with
  | some kv => kv.2
  | none => ""

/-- Value of key `k` in section `sec` of file `f`, as go-ini reports it
(`""` when the section or key is missing). -/
def iniGet (f : IniFile) (sec k : String) : String :=
  match iniGetSection f sec with
  | some s => sectionGet s k
  | none => ""

/-- go-ini `Section.Key(k).SetValue(v)`: replace the first binding of `k`,
or append the binding when `k` is not yet present. -/
def setKey (ks : List (String × String)) (k v : String) : List (String × String) :=
  match ks with
  | [] => [(k, v)]
  | kv :: rest =>
    if kv.1 = k then (k, v) :: rest
    else kv :: setKey rest k v

/-- go-ini `File.NewSection(name)` followed by edits on the returned section:
when a section with this name exists its keys are updated in place, otherwise
a fresh section is appended. -/
def withSection (f : IniFile) (name : String)
    (upd : List (String × String) → List (String × String)) : IniFile :=
  match f with
  | [] => [⟨name, upd []⟩]
  | s :: rest =>
    if s.name = name then { s with keys := upd s.keys } :: rest
    else s :: withSection rest name upd

/-! ## Persistence Store: profiles (config/config.go) -/

/-- config.SSOProfile. -/
structure SSOProfile where
  Name : String
  StartURL : String
  SSORegion : String
  DefaultRegion : String
  deriving Repr, DecidableEq

/-- The loop body of Manager.SaveProfiles: create (or reuse) the section
named after the profile and set its three keys. -/
def saveProfilesStep (cfg : IniFile) (p : SSOProfile) : IniFile :=
  withSection cfg p.Name (fun ks =>
    setKey (setKey (setKey ks "start_url" p.StartURL)
      "sso_region" p.SSORegion) "default_region" p.DefaultRegion)

/-- Manager.SaveProfiles (config/config.go:171-190): starts from
`ini.Empty()`, creates one section per profile and sets exactly the keys
`start_url`, `sso_region`, `default_region`, then rewrites the whole awsesh
config file with that content.  The prior file content plays no part. -/
def saveProfiles (profiles : List SSOProfile) : IniFile :=
  profiles.foldl saveProfilesStep []

/-! ## Persistence Store: token cache (config/config.go) -/

/-- One section of the awsesh-tokens file.  `expires_at` is stored as an
RFC 3339 string; here it is the whole-second count (`none` models a missing
or empty `expires_at` key).  `access_token = ""` also covers a missing
`access_token` key, since go-ini reads a missing key as `""`. -/
structure TokenSection where
  name : String
  access_token : String
  expires_at : Option Nat
  deriving Repr, DecidableEq

/-- The awsesh-tokens file: one section per start URL. -/
abbrev TokensFile := List TokenSection

/-- aws.TokenCache (aws/types.go). -/
structure TokenCache where
  AccessToken : String
  ExpiresAt : Nat
  StartURL : String
  deriving Repr, DecidableEq

/-- Manager.SaveToken (config/config.go:317-340): load the tokens file
(missing file ~ empty), `NewSection(startURL)` (merging into the existing
section when present), set `access_token` and `expires_at` (RFC 3339, i.e.
truncated to a whole second), rewrite the file. -/
def saveToken (disk : Option TokensFile) (startURL token : String)
    (expiresAt : Nat) : TokensFile :=
  let cfg := disk.getD []
  match cfg.find? (fun s => s.name = startURL) with
  | some _ =>
    cfg.map (fun s =>
      if s.name = startURL then
        { s with access_token := token, expires_at := some (expiresAt / nsPerSec) }
      else s)
  | none => cfg ++ [⟨startURL, token, some (expiresAt / nsPerSec)⟩]

/-- Manager.LoadToken (config/config.go:343-377) at current instant `now`:
missing file or section gives absent; empty token or missing expiry gives
absent; `time.Now().After(expiresAt)` (strict) gives absent; otherwise the
cached token is returned.  The RFC 3339 parse-error path concerns malformed
hand-edited files only and is outside this model. -/
def loadToken (disk : Option TokensFile) (startURL : String) (now : Nat) :
    Option TokenCache :=
  match disk with
  | none => none
  | some cfg =>
    match cfg.find? (fun s => s.name = startURL) with
    | none => none
    | some sec =>
      if sec.access_token = "" then none
      else
        match sec.expires_at with
        | none => none
        | some secs =>
          let expiresAt := secs * nsPerSec
          if now > expiresAt then none
          else some ⟨sec.access_token, expiresAt, startURL⟩

/-! ## Persistence Store: credentials file (config/config.go) -/

/-- The key edits WriteCredentialsWithProfile performs on the profile
section: set `aws_access_key_id`, `aws_secret_access_key`,
`aws_session_token` (only when the session token is nonempty), `region`. -/
def credentialKeys (ks : List (String × String))
    (accessKeyID secretAccessKey sessionToken region : String) :
    List (String × String) :=
  setKey
    (if sessionToken ≠ "" then
      setKey (setKey (setKey ks "aws_access_key_id" accessKeyID)
        "aws_secret_access_key" secretAccessKey)
        "aws_session_token" sessionToken
    else
      setKey (setKey ks "aws_access_key_id" accessKeyID)
        "aws_secret_access_key" secretAccessKey)
    "region" region

/-- WriteCredentialsWithProfile (config/config.go:415-447): load the
credentials file (any load failure gives `ini.Empty()`), `NewSection`
(merging into an existing section of that name), apply the key edits,
rewrite the file. -/
def writeCredentialsWithProfile (prior : Option IniFile)
    (accessKeyID secretAccessKey sessionToken region profileName : String) :
    IniFile :=
  withSection (prior.getD []) profileName
    (fun ks => credentialKeys ks accessKeyID secretAccessKey sessionToken region)

/-! ## Data model of the Session Controller (main.go) -/

/-- aws.Account (aws/types.go). -/
structure Account where
  Name : String
  AccountID : String
  Roles : List String
  SelectedRole : String := ""
  Region : String := ""
  RolesLoaded : Bool := false
  deriving Repr, DecidableEq

/-- aws.SSOLoginInfo (aws/types.go).  `Interval` is in seconds and
`ExpiresAt` in nanoseconds. -/
structure SSOLoginInfo where
  VerificationUri : String := ""
  VerificationUriComplete : String := ""
  UserCode : String := ""
  DeviceCode : String := ""
  Interval : Nat := 0
  ClientID : String := ""
  ClientSecret : String := ""
  ExpiresAt : Nat := 0
  StartUrl : String := ""
  RequestID : String := ""
  deriving Repr, DecidableEq

/-- The model states of main.go (stateSelectSSO .. stateSetAccountRegion). -/
inductive AppState where
  | stateSelectSSO
  | stateSelectAccount
  | stateSelectRole
  | stateSessionSuccess
  | stateAddSSO
  | stateEditSSO
  | stateDeleteConfirm
  | stateSetAccountRegion
  deriving Repr, DecidableEq

/-- maxAccountsForRoleLoading (main.go:42). -/
def maxAccountsForRoleLoading : Nat := 100

/-- The tea.Msg variants of main.go that the claims concern. -/
inductive Msg where
  | fetchAccountsSuccess (accounts : List Account) (requestID : String)
  | fetchAccountsErr (err : String) (requestID : String)
  | ssoLoginSuccess (accessToken : String) (requestID : String)
  | ssoLoginErr (err : String) (requestID : String)
  | ssoLoginInfo (info : SSOLoginInfo)
  | ssoTokenPollingTick (info : SSOLoginInfo)
  | loadRolesErr (accountID : String) (err : String)
  | loadNextRole (accounts : List Account) (currentIdx : Nat) (accessToken : String)
  | updateRoles (accountID : String) (roles : List String) (currentIdx : Nat)
  | credentialsSet
  deriving Repr, DecidableEq

/-- The tea.Cmd values returned by the handlers under study.  A `Cmd` is the
asynchronous work a handler schedules; executing it later yields messages. -/
inductive Cmd where
  | none
  | emit (msg : Msg)
  | loadAccountRoles (accessToken accountID : String) (currentIdx : Nat)
  | fetchAccounts (accessToken requestID : String) (existingAccounts : List Account)
  | pollForSSOToken (info : SSOLoginInfo)
  | spinnerTick
  | batch2 (c1 c2 : Cmd)
  deriving Repr, DecidableEq

/-- Insert a string into a sorted list (ascending, case-sensitive). -/
def insertSorted (x : String) : List String → List String
  | [] => [x]
  | y :: ys => if x ≤ y then x :: y :: ys else y :: insertSorted x ys

/-- sortItems (main.go:465-471): list items ordered by title,
lexicographically and case-sensitively. -/
def sortTitles (l : List String) : List String := l.foldr insertSorted []

/-- Titles produced by makeAccountItems (main.go:474-504); descriptions and
the per-account region lookups are view-only and not modelled. -/
def accountItemTitles (accounts : List Account) : List String :=
  sortTitles (accounts.map (fun a => a.Name))

/-- Titles produced by makeRoleItems (main.go:507-518). -/
def roleItemTitles (roles : List String) : List String := sortTitles roles

/-- The fields of the main.go `model` that the claims concern.  List widgets
are reduced to their ordered item titles. -/
structure Model where
  state : AppState
  ssoProfiles : List SSOProfile := []
  selectedSSO : Option SSOProfile := none
  accounts : List Account := []
  selectedAcc : Option Account := none
  accountListTitles : List String := []
  roleListTitles : List String := []
  accessToken : String := ""
  currentRequestID : String := ""
  loadingText : String := ""
  errorMessage : String := ""
  verificationUri : String := ""
  verificationUriComplete : String := ""
  verificationCode : String := ""
  usingCachedAccounts : Bool := false
  isAuthenticating : Bool := false
  deriving Repr, DecidableEq

/-- startLoadingRoles (main.go:101-114): no command at all beyond the
threshold, otherwise kick off the sequential sweep at index 0. -/
def startLoadingRoles (accessToken : String) (accounts : List Account) : Cmd :=
  if accounts.length > maxAccountsForRoleLoading then .none
  else .emit (.loadNextRole accounts 0 accessToken)

/-- In-place update of the first account whose ID matches, as the Go
`for idx, acc := range m.accounts { ... break }` loops do. -/
def updateFirstByID (accounts : List Account) (accountID : String)
    (f : Account → Account) : List Account :=
  match accounts with
  | [] => []
  | a :: rest =>
    if a.AccountID = accountID then f a :: rest
    else a :: updateFirstByID rest accountID f

/-- model.Update (main.go:812-1616) restricted to the message variants the
claims concern; `now` is the wall-clock instant of the scheduler turn.
Every modelled case returns early in the Go source, so the trailing
widget-update section of Update is not reached by any of them. -/
def update (m : Model) (msg : Msg) (now : Nat) : Model × Cmd :=
  match msg with
  | .ssoLoginInfo info =>
    -- main.go:1363-1379
    if info.RequestID ≠ m.currentRequestID then (m, .none)
    else
      ({ m with
          verificationUri := info.VerificationUri
          verificationUriComplete := info.VerificationUriComplete
          verificationCode := info.UserCode
          loadingText := "Waiting for browser authentication..." },
        .batch2 (.pollForSSOToken info) .spinnerTick)
  | .ssoLoginSuccess accessToken requestID =>
    -- main.go:1381-1391
    if requestID ≠ m.currentRequestID then (m, .none)
    else
      ({ m with
          accessToken := accessToken
          loadingText := "SSO login successful! Fetching accounts..."
          errorMessage := ""
          isAuthenticating := false },
        .fetchAccounts accessToken m.currentRequestID m.accounts)
  | .ssoLoginErr err requestID =>
    -- main.go:1393-1401
    if requestID ≠ m.currentRequestID then (m, .none)
    else ({ m with errorMessage := err, state := .stateSelectSSO }, .none)
  | .fetchAccountsSuccess accounts requestID =>
    -- main.go:1403-1448 (the background SaveCachedAccounts is fire-and-forget)
    if requestID ≠ m.currentRequestID then (m, .none)
    else if m.usingCachedAccounts then
      ({ m with accounts := accounts }, .none)
    else
      let m' := { m with
        accounts := accounts
        state := .stateSelectAccount
        errorMessage := ""
        usingCachedAccounts := false
        loadingText := ""
        accountListTitles := accountItemTitles accounts }
      if accounts.length ≤ maxAccountsForRoleLoading then
        (m', startLoadingRoles m.accessToken accounts)
      else (m', .none)
  | .fetchAccountsErr err requestID =>
    -- main.go:1450-1458
    if requestID ≠ m.currentRequestID then (m, .none)
    else ({ m with errorMessage := err, state := .stateSelectSSO }, .none)
  | .credentialsSet =>
    -- main.go:1460-1462
    ({ m with state := .stateSessionSuccess }, .none)
  | .ssoTokenPollingTick info =>
    -- main.go:1464-1484: note the absence of any request-ID comparison
    if now > info.ExpiresAt then
      ({ m with errorMessage := "Authentication timed out", state := .stateSelectSSO },
        .none)
    else
      ({ m with loadingText :=
          "Waiting for authentication... (" ++
            toString ((info.ExpiresAt - now) / nsPerSec) ++ "s remaining)" },
        .batch2 .spinnerTick (.pollForSSOToken info))
  | .loadRolesErr accountID _err =>
    -- main.go:1500-1515: mark the account, clear the loading text, and
    -- return no continuation command
    let accounts' := updateFirstByID m.accounts accountID
      (fun a => { a with Roles := ["Error loading roles"], RolesLoaded := true })
    ({ m with
        accounts := accounts'
        accountListTitles := accountItemTitles accounts'
        loadingText := "" },
      .none)
  | .loadNextRole accounts currentIdx accessToken =>
    -- main.go:1517-1535
    if h : currentIdx < accounts.length then
      let acc := accounts.get ⟨currentIdx, h⟩
      if acc.RolesLoaded then
        (m, .emit (.loadNextRole accounts (currentIdx + 1) accessToken))
      else (m, .loadAccountRoles accessToken acc.AccountID currentIdx)
    else (m, .none)
  | .updateRoles accountID roles currentIdx =>
    -- main.go:1537-1579 (the background SaveCachedAccounts is fire-and-forget)
    let accounts' := updateFirstByID m.accounts accountID
      (fun a => { a with Roles := roles, RolesLoaded := true })
    let hit : Bool := m.accounts.any (fun a => a.AccountID = accountID)
    let selMatches : Bool :=
      match m.selectedAcc with
      | some sel => sel.AccountID = accountID
      | none => false
    let m' := { m with
      accounts := accounts'
      selectedAcc :=
        if hit && selMatches then accounts'.find? (fun a => a.AccountID = accountID)
        else m.selectedAcc
      roleListTitles :=
        if hit && selMatches then roleItemTitles roles else m.roleListTitles
      loadingText := if hit && selMatches then "" else m.loadingText
      accountListTitles :=
        if hit then accountItemTitles accounts' else m.accountListTitles }
    if accounts'.length ≤ maxAccountsForRoleLoading then
      (m', .emit (.loadNextRole accounts' (currentIdx + 1) m.accessToken))
    else (m', .none)

/-- The first account with the given name together with its index, as the
Go loop `for idx, acc := range m.accounts` computes it. -/
def findAccountByName (accounts : List Account) (accName : String) :
    Option (Nat × Account) :=
  match accounts with
  | [] => none
  | a :: rest =>
    if a.Name = accName then some (0, a)
    else (findAccountByName rest accName).map (fun p => (p.1 + 1, p.2))

/-- The `enter` handler in stateSelectAccount (main.go:1202-1242), for the
account list item titled `accName` (the filter is inactive).  Mirrors the
first-name-match loop: select the account, blank the request ID, move to
role selection; if the roles are already loaded render them, otherwise issue
exactly one single-account role load. -/
def enterSelectAccount (m : Model) (accName : String) : Model × Cmd :=
  match findAccountByName m.accounts accName with
  | some (idx, acc) =>
    let m' := { m with
      selectedAcc := some acc
      currentRequestID := ""
      state := .stateSelectRole }
    if acc.RolesLoaded then
      ({ m' with roleListTitles := roleItemTitles acc.Roles, loadingText := "" }, .none)
    else
      ({ m' with loadingText := "Loading roles for " ++ acc.Name ++ "..." },
        .loadAccountRoles m.accessToken acc.AccountID idx)
  | none => (m, .none)

/-- The token-cache side effect of the ctrl+c quit handler
(main.go:854-884): the cached token is overwritten with an empty token and
the current instant exactly when a profile is selected and no account is. -/
def ctrlCTokenEffect (m : Model) (tokens : Option TokensFile) (now : Nat) :
    Option TokensFile :=
  match m.selectedSSO, m.selectedAcc with
  | some sso, Option.none => some (saveToken tokens sso.StartURL "" now)
  | _, _ => tokens

/-- The token-cache side effect of the q quit handler (main.go:886-918):
as ctrl+c, but inactive (no quit, no effect) in the add/edit/delete-confirm
modal states. -/
def qTokenEffect (m : Model) (tokens : Option TokensFile) (now : Nat) :
    Option TokensFile :=
  if m.state = .stateAddSSO ∨ m.state = .stateEditSSO ∨ m.state = .stateDeleteConfirm then
    tokens
  else ctrlCTokenEffect m tokens now

/-! ## Auth Orchestrator polling (main.go) -/

/-- Outcome of one `CreateToken` call, classifying the smithy API error
codes that pollForSSOToken and directSessionSetup switch on. -/
inductive CreateTokenResult where
  | success (token : String)
  | authorizationPending
  | slowDown
  | expiredToken
  | apiError (code errMsg : String)
  | otherError (e : String)
  deriving Repr, DecidableEq

/-- What one execution of the pollForSSOToken command does: sleep some
seconds, optionally persist a token, and deliver a message. -/
structure PollStep where
  delaySeconds : Nat
  message : Msg
  savedToken : Option (String × String × Nat)
  deriving Repr, DecidableEq

/-- pollForSSOToken (main.go:520-571) as a function of the CreateToken
outcome at instant `now`: AuthorizationPending and SlowDown both sleep a
fixed 2 seconds before the next polling tick (AuthorizationPending first
checks device-code expiry); ExpiredToken and other API errors fail; a
nonempty token is persisted with an 8-hour stamp. -/
def pollForSSOTokenStep (info : SSOLoginInfo) (r : CreateTokenResult)
    (now : Nat) : PollStep :=
  match r with
  | .authorizationPending =>
    if now > info.ExpiresAt then
      ⟨0, .ssoLoginErr "authentication timed out" info.RequestID, none⟩
    else ⟨2, .ssoTokenPollingTick info, none⟩
  | .slowDown => ⟨2, .ssoTokenPollingTick info, none⟩
  | .expiredToken => ⟨0, .ssoLoginErr "device code expired" info.RequestID, none⟩
  | .apiError code errMsg =>
    ⟨0, .ssoLoginErr ("API error: " ++ code ++ " - " ++ errMsg) info.RequestID, none⟩
  | .otherError _ =>
    if now > info.ExpiresAt then
      ⟨0, .ssoLoginErr "authentication timed out" info.RequestID, none⟩
    else ⟨2, .ssoTokenPollingTick info, none⟩
  | .success token =>
    if token ≠ "" then
      ⟨0, .ssoLoginSuccess token info.RequestID,
        some (info.StartUrl, token, now + hoursNs 8)⟩
    else ⟨2, .ssoTokenPollingTick info, none⟩

/-- The polling loop of directSessionSetup (main.go:2056-2104) runs on a
`time.Ticker` with period `info.Interval` seconds; AuthorizationPending and
SlowDown both just `continue`, so the next `CreateToken` call happens one
full tick later.  `none` means the loop exits instead of polling again. -/
def directNextPollDelay (info : SSOLoginInfo) (r : CreateTokenResult) :
    Option Nat :=
  match r with
  | .authorizationPending => some info.Interval
  | .slowDown => some info.Interval
  | _ => none

/-! ## CLI dispatch and exit codes (main.go) -/

/-- fatalError (main.go:2243-2258) renders the error box and then calls
`os.Exit(0)`. -/
def fatalErrorExitCode : Nat := 0

/-- The process exit code as decided by main (main.go:2412-2470),
handleLastSessionBrowser, handleInteractiveSession and initialModel.  The
Boolean flags abstract whether the respective operation fails; every
user-visible error funnels into fatalError, except a config-manager
initialization failure inside initialModel, which is `os.Exit(1)`
(main.go:360). -/
def mainExitCode (args : List String) (versionFlag browserFlag : Bool)
    (directSetupFails lastSessionBrowserFails configManagerInitFails
      tuiRunFails : Bool) : Nat :=
  if versionFlag then 0
  else if args.length = 2 ∨ args.length = 3 then
    if directSetupFails then fatalErrorExitCode else 0
  else if args.length = 0 then
    if browserFlag then
      if lastSessionBrowserFails then fatalErrorExitCode else 0
    else if configManagerInitFails then 1
    else if tuiRunFails then fatalErrorExitCode
    else 0
  else fatalErrorExitCode

/-! ## Executing commands: a deterministic scheduler for concrete runs -/

/-- Messages produced by executing one command, with the remote
`ListAccountRoles` answered by `oracle` (`none` = the call fails).  Commands
not exercised by the modelled runs produce no message. -/
def runCmdMsgs (oracle : String → Option (List String)) : Cmd → List Msg
  | .none => []
  | .emit msg => [msg]
  | .loadAccountRoles _accessToken accountID currentIdx =>
    match oracle accountID with
    | some roles => [.updateRoles accountID roles currentIdx]
    | none => [.loadRolesErr accountID "ListAccountRoles failed"]
  | .fetchAccounts _ _ _ => []
  | .pollForSSOToken _ => []
  | .spinnerTick => []
  | .batch2 c1 c2 => runCmdMsgs oracle c1 ++ runCmdMsgs oracle c2

/-- Drive the Bubble Tea loop for at most `fuel` scheduler turns: deliver
each queued message to `update` and enqueue the messages of the returned
command. -/
def run (oracle : String → Option (List String)) (now : Nat) :
    Nat → Model → List Msg → Model
  | 0, m, _ => m
  | _ + 1, m, [] => m
  | fuel + 1, m, msg :: rest =>
    let (m', c) := update m msg now
    run oracle now fuel m' (rest ++ runCmdMsgs oracle c)

/-! ## The concrete 4-account sequential sweep (spec scenario S4) -/

/-- A fresh account (roles not yet loaded). -/
def freshAccount (nm accId : String) : Account :=
  { Name := nm, AccountID := accId, Roles := [] }

/-- Accounts A, B, C, D of scenario S4. -/
def sweepAccounts : List Account :=
  [freshAccount "A" "111111111111", freshAccount "B" "222222222222",
   freshAccount "C" "333333333333", freshAccount "D" "444444444444"]

/-- Role oracle of scenario S4: the call for account B fails, every other
account has one role. -/
def sweepOracle (accId : String) : Option (List String) :=
  if accId = "222222222222" then none else some ["AdministratorAccess"]

/-- Controller model at the start of the sweep. -/
def sweepModel : Model :=
  { state := .stateSelectAccount, accounts := sweepAccounts,
    accessToken := "tok-xyz" }

/-- The model after running the sequential sweep of scenario S4 to
quiescence (fuel 20 is ample: the run stops by itself). -/
def sweepResult : Model :=
  run sweepOracle 0 20 sweepModel
    (runCmdMsgs sweepOracle (startLoadingRoles "tok-xyz" sweepAccounts))

/-! ## Helper lemmas on the INI model -/

theorem setKey_find_self (ks : List (String × String)) (k v : String) :
    (setKey ks k v).find? (fun kv => kv.1 = k) = some (k, v) := by
  induction ks with
  | nil => simp [setKey]
  | cons kv rest ih =>
    by_cases h : kv.1 = k
    · simp [setKey, h]
    · simp [setKey, h, ih]

theorem setKey_find_ne (ks : List (String × String)) (k v k' : String)
    (h : k' ≠ k) :
    (setKey ks k v).find? (fun kv => kv.1 = k') = ks.find? (fun kv => kv.1 = k') := by
  induction ks with
  | nil => simp [setKey, Ne.symm h]
  | cons kv rest ih =>
    by_cases hk : kv.1 = k
    · simp only [setKey, if_pos hk]
      rw [List.find?_cons_of_neg _ (by simp [Ne.symm h]),
          List.find?_cons_of_neg _ (by simp [hk, Ne.symm h])]
    · simp only [setKey, if_neg hk]
      by_cases hk' : kv.1 = k'
      · rw [List.find?_cons_of_pos _ (by simp [hk']),
            List.find?_cons_of_pos _ (by simp [hk'])]
      · rw [List.find?_cons_of_neg _ (by simp [hk']),
            List.find?_cons_of_neg _ (by simp [hk'])]
        exact ih

/-- The keys of the section `withSection` writes: the updater applied to the
first existing section of that name (or to the empty list). -/
theorem iniGetSection_withSection_self (f : IniFile) (name : String)
    (upd : List (String × String) → List (String × String)) :
    iniGetSection (withSection f name upd) name =
      some ⟨name, upd (((iniGetSection f name).map IniSection.keys).getD [])⟩ := by
  induction f with
  | nil => simp [withSection, iniGetSection]
  | cons s rest ih =>
    by_cases h : s.name = name
    · simp [withSection, iniGetSection, h, List.find?]
    · simpa [withSection, iniGetSection, h, List.find?] using ih

/-- `withSection` leaves every differently-named section untouched. -/
theorem iniGetSection_withSection_ne (f : IniFile) (name : String)
    (upd : List (String × String) → List (String × String)) (s : String)
    (h : s ≠ name) :
    iniGetSection (withSection f name upd) s = iniGetSection f s := by
  induction f with
  | nil =>
    simp only [withSection, iniGetSection]
    rw [List.find?_cons_of_neg _ (by simp [Ne.symm h])]
  | cons sec rest ih =>
    by_cases hsec : sec.name = name
    · simp only [withSection, if_pos hsec, iniGetSection]
      rw [List.find?_cons_of_neg _ (by simp [hsec, Ne.symm h]),
          List.find?_cons_of_neg _ (by simp [hsec, Ne.symm h])]
    · simp only [withSection, if_neg hsec, iniGetSection]
      by_cases hss : sec.name = s
      · rw [List.find?_cons_of_pos _ (by simp [hss]),
            List.find?_cons_of_pos _ (by simp [hss])]
      · rw [List.find?_cons_of_neg _ (by simp [hss]),
            List.find?_cons_of_neg _ (by simp [hss])]
        exact ih

/-- When no section of the given name exists, `withSection` appends a fresh
one at the end. -/
theorem withSection_of_not_mem (f : IniFile) (name : String)
    (upd : List (String × String) → List (String × String))
    (h : ∀ s ∈ f, s.name ≠ name) :
    withSection f name upd = f ++ [⟨name, upd []⟩] := by
  induction f with
  | nil => simp [withSection]
  | cons s rest ih =>
    have hs : s.name ≠ name := h s (by simp)
    simp only [withSection, if_neg hs, List.cons_append, List.cons.injEq, true_and]
    exact ih (fun t ht => h t (by simp [ht]))

/-- `find?` skips a prefix on which it fails. -/
theorem find_append_of_none {α : Type} {p : α → Bool} {l₁ : List α}
    (l₂ : List α) (h : l₁.find? p = none) :
    (l₁ ++ l₂).find? p = l₂.find? p := by
  induction l₁ with
  | nil => simp
  | cons a rest ih =>
    by_cases hpa : p a
    · rw [List.find?_cons_of_pos _ hpa] at h
      exact absurd h (by simp)
    · rw [List.find?_cons_of_neg _ hpa] at h
      rw [List.cons_append, List.find?_cons_of_neg _ hpa]
      exact ih h

/-- After the in-place upsert that `saveToken` performs on an existing
section, the first section matching the start URL carries the new token and
expiry. -/
theorem upsert_find (cfg : TokensFile) (url token : String) (secs : Nat)
    (s₀ : TokenSection) (h : cfg.find? (fun s => s.name = url) = some s₀) :
    ∃ nm, (cfg.map (fun s => if s.name = url then
        { s with access_token := token, expires_at := some secs } else s)).find?
        (fun s => s.name = url) = some ⟨nm, token, some secs⟩ := by
  induction cfg with
  | nil => simp at h
  | cons s rest ih =>
    by_cases hs : s.name = url
    · refine ⟨s.name, ?_⟩
      simp only [List.map_cons, if_pos hs]
      rw [List.find?_cons_of_pos _ (by simp [hs])]
    · have h' : rest.find? (fun s => s.name = url) = some s₀ := by
        rwa [List.find?_cons_of_neg _ (by simp [hs])] at h
      obtain ⟨nm, hnm⟩ := ih h'
      refine ⟨nm, ?_⟩
      simp only [List.map_cons, if_neg hs]
      rw [List.find?_cons_of_neg _ (by simp [hs])]
      exact hnm

/-- The section `saveToken` leaves behind for the start URL carries exactly
the new access token and the whole-second truncation of the new expiry. -/
theorem saveToken_find (disk : Option TokensFile) (url token : String)
    (e : Nat) :
    ∃ nm, (saveToken disk url token e).find? (fun s => s.name = url) =
      some ⟨nm, token, some (e / nsPerSec)⟩ := by
  rcases hfind : (disk.getD []).find? (fun s => s.name = url) with _ | s₀
  · refine ⟨url, ?_⟩
    simp only [saveToken, hfind]
    rw [find_append_of_none _ hfind]
    simp
  · simp only [saveToken, hfind]
    exact upsert_find _ url token _ s₀ hfind

/-- The section content Manager.SaveProfiles writes for one profile. -/
def profileSection (p : SSOProfile) : IniSection :=
  ⟨p.Name, [("start_url", p.StartURL), ("sso_region", p.SSORegion),
    ("default_region", p.DefaultRegion)]⟩

/-- The SaveProfiles fold, run from any accumulator disjoint from the
remaining profile names, appends exactly one three-key section per profile. -/
theorem saveProfiles_foldl (profiles : List SSOProfile) (cfg : IniFile)
    (hnd : profiles.Pairwise (fun p q => p.Name ≠ q.Name))
    (hdisj : ∀ p ∈ profiles, ∀ s ∈ cfg, s.name ≠ p.Name) :
    profiles.foldl saveProfilesStep cfg = cfg ++ profiles.map profileSection := by
  induction profiles generalizing cfg with
  | nil => simp
  | cons p ps ih =>
    obtain ⟨hhead, htail⟩ := List.pairwise_cons.mp hnd
    have hstep : saveProfilesStep cfg p = cfg ++ [profileSection p] := by
      unfold saveProfilesStep
      rw [withSection_of_not_mem _ _ _ (fun s hs => hdisj p (by simp) s hs)]
      rfl
    have hdisj' : ∀ q ∈ ps, ∀ s ∈ cfg ++ [profileSection p], s.name ≠ q.Name := by
      intro q hq s hs
      rcases List.mem_append.mp hs with hcfg | hp
      · exact hdisj q (by simp [hq]) s hcfg
      · have : s = profileSection p := by simpa using hp
        subst this
        exact hhead q hq
    rw [List.foldl_cons, hstep, ih (cfg ++ [profileSection p]) htail hdisj']
    simp

/-! ## Claim C1 — exit codes -/

/-- C1: the spec requires a non-zero exit status on every user-visible
error, and in particular on a wrong positional argument count.  The code
instead funnels every such error into fatalError, which calls `os.Exit(0)`
(main.go:2257): a single positional argument exits 0, and a failing direct
session setup with two arguments exits 0 as well. -/
theorem C1_error_exits_zero :
    mainExitCode ["acme"] false false false false false false = 0 ∧
    mainExitCode ["acme", "prod"] false false true false false false = 0 ∧
    fatalErrorExitCode = 0 := by
  decide

/-! ## Claim C2 — SaveProfiles and preference preservation -/

/-- A prior awsesh profile store holding the metadata section and a
`last_account` preference for profile `acme`. -/
def c2PriorStore : IniFile :=
  [⟨"metadata", [("last_sso_profile", "acme")]⟩,
   ⟨"acme", [("start_url", "https://acme.awsapps.com/start"),
     ("sso_region", "eu-north-1"), ("default_region", "eu-north-1"),
     ("last_account", "prod")]⟩]

/-- The profile list saved in the C2 scenario; `acme` is still present. -/
def c2Profiles : List SSOProfile :=
  [⟨"acme", "https://acme.awsapps.com/start", "eu-north-1", "eu-north-1"⟩]

/-- C2 counterexample: before the save the store holds the metadata section
and the `last_account` preference of the still-present profile `acme`;
SaveProfiles produces a file (installed as the whole new store) in which
both are gone. -/
theorem C2_counterexample :
    iniGet c2PriorStore "acme" "last_account" = "prod" ∧
    iniGetSection c2PriorStore "metadata" ≠ none ∧
    iniGet (saveProfiles c2Profiles) "acme" "last_account" = "" ∧
    iniGetSection (saveProfiles c2Profiles) "metadata" = none := by
  decide

/-- C2 amended: SaveProfiles rewrites the store from scratch; for any
profile list with pairwise-distinct names the resulting file consists of
exactly one section per profile holding only `start_url`, `sso_region` and
`default_region` — the metadata section and every preference subkey of the
prior store are discarded (the prior store is not even an input). -/
theorem C2_amended (profiles : List SSOProfile)
    (hnd : profiles.Pairwise (fun p q => p.Name ≠ q.Name)) :
    saveProfiles profiles = profiles.map profileSection := by
  unfold saveProfiles
  rw [saveProfiles_foldl profiles [] hnd (by simp)]
  simp

/-- C2 amended, witnessed on the concrete single-profile store. -/
theorem C2_amended_witness :
    saveProfiles c2Profiles = c2Profiles.map profileSection :=
  C2_amended c2Profiles (by simp [c2Profiles])

/-! ## Claim C3 — error policy of the sequential role sweep -/

/-- C3 counterexample: in the 4-account sweep of scenario S4 where the call
for B fails, B does get the synthetic marker with `roles_loaded = true`, but
C and D are left with `roles_loaded = false`: the sweep does not continue
past the failure, contrary to the claim. -/
theorem C3_counterexample :
    ((sweepResult.accounts.find? (fun a => a.Name = "B")).map
        (fun a => (a.Roles, a.RolesLoaded)) =
      some (["Error loading roles"], true)) ∧
    ((sweepResult.accounts.find? (fun a => a.Name = "C")).map
        (fun a => a.RolesLoaded) = some false) ∧
    ((sweepResult.accounts.find? (fun a => a.Name = "D")).map
        (fun a => a.RolesLoaded) = some false) := by
  decide

/-- C3 amended: a failed role load records the marker `"Error loading
roles"` and sets `roles_loaded = true` for the failed account, but returns
no continuation command, so the sequential sweep stops there; in the
4-account run A is loaded, B carries the marker, and C and D stay
unloaded. -/
theorem C3_amended :
    (∀ (m : Model) (accountID err : String) (now : Nat),
        (update m (.loadRolesErr accountID err) now).2 = Cmd.none ∧
        (update m (.loadRolesErr accountID err) now).1.accounts =
          updateFirstByID m.accounts accountID
            (fun a => { a with Roles := ["Error loading roles"],
                               RolesLoaded := true })) ∧
    (sweepResult.accounts.map (fun a => (a.Name, a.RolesLoaded)) =
      [("A", true), ("B", true), ("C", false), ("D", false)]) ∧
    (sweepResult.accounts.map (fun a => a.Roles) =
      [["AdministratorAccess"], ["Error loading roles"], [], []]) := by
  refine ⟨fun m accountID err now => ⟨rfl, rfl⟩, by decide, by decide⟩

/-! ## Claim C4 — polling delays -/

/-- A device-authorization handshake whose server-provided interval is 5
seconds. -/
def c4Info : SSOLoginInfo :=
  { Interval := 5, ExpiresAt := hoursNs 1, RequestID := "r" }

/-- C4 counterexample: with a server-provided interval of 5 seconds, a poll
answered AuthorizationPending is followed after a fixed 2 seconds, not after
the server-provided interval; SlowDown also waits the same fixed 2 seconds,
so the effective wait is not doubled. -/
theorem C4_counterexample :
    c4Info.Interval = 5 ∧
    (pollForSSOTokenStep c4Info .authorizationPending 0).delaySeconds = 2 ∧
    (pollForSSOTokenStep c4Info .authorizationPending 0).delaySeconds ≠
      c4Info.Interval ∧
    (pollForSSOTokenStep c4Info .slowDown 0).delaySeconds = 2 := by
  decide

/-- C4 amended: in the TUI polling loop both AuthorizationPending (before
device-code expiry) and SlowDown delay the next poll by a fixed 2 seconds,
irrespective of the server-provided interval; in the direct CLI loop the
ticker delivers the next poll exactly one server-provided interval later for
both outcomes, with no doubling. -/
theorem C4_amended (info : SSOLoginInfo) (now : Nat)
    (h : now ≤ info.ExpiresAt) :
    (pollForSSOTokenStep info .authorizationPending now).delaySeconds = 2 ∧
    (pollForSSOTokenStep info .slowDown now).delaySeconds = 2 ∧
    directNextPollDelay info .authorizationPending = some info.Interval ∧
    directNextPollDelay info .slowDown = some info.Interval := by
  refine ⟨?_, rfl, rfl, rfl⟩
  simp [pollForSSOTokenStep, Nat.not_lt.mpr h]

/-- C4 amended, witnessed on the concrete 5-second-interval handshake. -/
theorem C4_amended_witness :
    (pollForSSOTokenStep c4Info .authorizationPending 0).delaySeconds = 2 ∧
    (pollForSSOTokenStep c4Info .slowDown 0).delaySeconds = 2 ∧
    directNextPollDelay c4Info .authorizationPending = some c4Info.Interval ∧
    directNextPollDelay c4Info .slowDown = some c4Info.Interval :=
  C4_amended c4Info 0 (by decide)

/-! ## Claim C5 — request-ID cancellation -/

/-- A controller whose current request ID has moved on to `r2`. -/
def c5Model : Model :=
  { state := .stateSelectAccount, currentRequestID := "r2",
    loadingText := "waiting" }

/-- A handshake started under the stale request ID `r1`, whose device code
has expired. -/
def c5Info : SSOLoginInfo := { ExpiresAt := 0, RequestID := "r1" }

/-- C5 counterexample: a polling tick born under the stale request ID `r1`
is processed without any ID comparison and mutates the controller — here it
flips the state back to profile selection and sets the timeout banner, even
though the current ID is `r2`. -/
theorem C5_counterexample :
    c5Info.RequestID ≠ c5Model.currentRequestID ∧
    (update c5Model (.ssoTokenPollingTick c5Info) 1).1 ≠ c5Model ∧
    (update c5Model (.ssoTokenPollingTick c5Info) 1).1.state =
      AppState.stateSelectSSO ∧
    (update c5Model (.ssoTokenPollingTick c5Info) 1).1.errorMessage =
      "Authentication timed out" := by
  decide

/-- C5 amended: the ID-carrying events — login info, login success, login
failure, account-fetch success and account-fetch failure — cause no state
mutation and schedule no work when their request ID differs from the current
one; polling tick events, however, carry no ID comparison and are processed
regardless (see the counterexample). -/
theorem C5_amended (m : Model) (now : Nat) (rid accessToken err : String)
    (accounts : List Account) (info : SSOLoginInfo)
    (hrid : rid ≠ m.currentRequestID) (hinfo : info.RequestID = rid) :
    update m (.ssoLoginInfo info) now = (m, .none) ∧
    update m (.ssoLoginSuccess accessToken rid) now = (m, .none) ∧
    update m (.ssoLoginErr err rid) now = (m, .none) ∧
    update m (.fetchAccountsSuccess accounts rid) now = (m, .none) ∧
    update m (.fetchAccountsErr err rid) now = (m, .none) := by
  subst hinfo
  refine ⟨?_, ?_, ?_, ?_, ?_⟩ <;> simp [update, hrid]

/-- C5 amended, witnessed on the stale-ID scenario. -/
theorem C5_amended_witness :
    update c5Model (.ssoLoginInfo c5Info) 1 = (c5Model, .none) ∧
    update c5Model (.ssoLoginSuccess "tok-xyz" "r1") 1 = (c5Model, .none) ∧
    update c5Model (.ssoLoginErr "boom" "r1") 1 = (c5Model, .none) ∧
    update c5Model (.fetchAccountsSuccess [] "r1") 1 = (c5Model, .none) ∧
    update c5Model (.fetchAccountsErr "boom" "r1") 1 = (c5Model, .none) :=
  C5_amended c5Model 1 "r1" "tok-xyz" "boom" [] c5Info (by decide) rfl

/-! ## Claim C6 — token expiry boundary -/

/-- A token cache holding a token that expires at second 100. -/
def c6Tokens : TokensFile :=
  [⟨"https://acme.awsapps.com/start", "tok-xyz", some 100⟩]

/-- C6 counterexample: at the instant equal to the stored expiry the claim
requires absent, but LoadToken uses the strict `time.Now().After(expiresAt)`
and still returns the token. -/
theorem C6_counterexample :
    loadToken (some c6Tokens) "https://acme.awsapps.com/start"
        (100 * nsPerSec) =
      some ⟨"tok-xyz", 100 * nsPerSec, "https://acme.awsapps.com/start"⟩ := by
  decide

/-- C6 amended: for a stored record with a nonempty token, LoadToken returns
the token exactly when now ≤ expiry — absent only when the stored expiry is
strictly in the past, so the boundary instant still yields the token. -/
theorem C6_amended (disk : TokensFile) (url token : String) (secs now : Nat)
    (hfind : disk.find? (fun s => s.name = url) = some ⟨url, token, some secs⟩)
    (htok : token ≠ "") :
    loadToken (some disk) url now =
      if now ≤ secs * nsPerSec then some ⟨token, secs * nsPerSec, url⟩
      else none := by
  by_cases hnow : now ≤ secs * nsPerSec
  · have h2 : ¬ now > secs * nsPerSec := by omega
    simp [loadToken, hfind, htok, hnow, h2]
  · have h2 : now > secs * nsPerSec := by omega
    simp [loadToken, hfind, htok, hnow, h2]

/-- C6 amended, witnessed one nanosecond past the stored expiry. -/
theorem C6_amended_witness :
    loadToken (some c6Tokens) "https://acme.awsapps.com/start"
        (100 * nsPerSec + 1) =
      if 100 * nsPerSec + 1 ≤ 100 * nsPerSec then
        some ⟨"tok-xyz", 100 * nsPerSec, "https://acme.awsapps.com/start"⟩
      else none :=
  C6_amended c6Tokens "https://acme.awsapps.com/start" "tok-xyz" 100
    (100 * nsPerSec + 1) (by decide) (by decide)

/-! ## Claim C7 — save/load round trip of a fresh login -/

/-- C7: after a successful login at instant `now` persists the token with an
8-hour stamp, loading it back for the same start URL returns the very same
access token, and the stored expiry (the RFC 3339 whole-second truncation of
now + 8h) lies between now + 7h59m and now + 8h. -/
theorem C7_token_roundtrip (disk : Option TokensFile) (url token : String)
    (now : Nat) (htok : token ≠ "") :
    loadToken (some (saveToken disk url token (now + hoursNs 8))) url now =
      some ⟨token, (now + hoursNs 8) / nsPerSec * nsPerSec, url⟩ ∧
    now + hoursNs 7 + minutesNs 59 ≤ (now + hoursNs 8) / nsPerSec * nsPerSec ∧
    (now + hoursNs 8) / nsPerSec * nsPerSec ≤ now + hoursNs 8 := by
  obtain ⟨nm, hfind⟩ := saveToken_find disk url token (now + hoursNs 8)
  have harith : now + hoursNs 7 + minutesNs 59 ≤
        (now + hoursNs 8) / nsPerSec * nsPerSec ∧
      (now + hoursNs 8) / nsPerSec * nsPerSec ≤ now + hoursNs 8 ∧
      ¬ now > (now + hoursNs 8) / nsPerSec * nsPerSec := by
    simp only [hoursNs, minutesNs, nsPerSec]
    omega
  refine ⟨?_, harith.1, harith.2.1⟩
  simp [loadToken, hfind, htok, harith.2.2]

/-- C7, witnessed for a login completing at instant 3. -/
theorem C7_witness :
    loadToken (some (saveToken none "https://acme.awsapps.com/start"
        "tok-xyz" (3 + hoursNs 8))) "https://acme.awsapps.com/start" 3 =
      some ⟨"tok-xyz", (3 + hoursNs 8) / nsPerSec * nsPerSec,
        "https://acme.awsapps.com/start"⟩ ∧
    3 + hoursNs 7 + minutesNs 59 ≤ (3 + hoursNs 8) / nsPerSec * nsPerSec ∧
    (3 + hoursNs 8) / nsPerSec * nsPerSec ≤ 3 + hoursNs 8 :=
  C7_token_roundtrip none "https://acme.awsapps.com/start" "tok-xyz" 3
    (by decide)

/-! ## Claim C8 — the 100-account threshold and on-demand loads -/

/-- A controller in account selection over two fresh accounts. -/
def enterModel : Model :=
  { state := .stateSelectAccount,
    accounts := [freshAccount "A" "111111111111",
      freshAccount "B" "222222222222"],
    accessToken := "tok-abc" }

/-- A fresh list of 101 accounts, one over the role-loading threshold. -/
def bigAccounts : List Account :=
  (List.range 101).map (fun i => freshAccount (toString i) (toString i))

/-- C8: above the 100-account threshold startLoadingRoles issues no command
and the fresh-accounts handler schedules no role work; at or below it the
sequential sweep starts at index 0; and opening an account whose roles are
not loaded issues exactly one single-account role load for that account. -/
theorem C8_role_load_policy (tok : String) (accounts : List Account)
    (m : Model) (accName : String) (idx : Nat) (acc : Account) (now : Nat)
    (rid : String)
    (hfind : findAccountByName m.accounts accName = some (idx, acc))
    (hnl : acc.RolesLoaded = false)
    (hrid : rid = m.currentRequestID)
    (hcache : m.usingCachedAccounts = false) :
    (accounts.length > maxAccountsForRoleLoading →
        startLoadingRoles tok accounts = Cmd.none ∧
        (update m (.fetchAccountsSuccess accounts rid) now).2 = Cmd.none) ∧
    (accounts.length ≤ maxAccountsForRoleLoading →
        startLoadingRoles tok accounts =
          Cmd.emit (.loadNextRole accounts 0 tok)) ∧
    (enterSelectAccount m accName).2 =
      Cmd.loadAccountRoles m.accessToken acc.AccountID idx := by
  subst hrid
  refine ⟨?_, ?_, ?_⟩
  · intro hbig
    have hnle : ¬ accounts.length ≤ maxAccountsForRoleLoading := by omega
    exact ⟨by simp [startLoadingRoles, hbig], by simp [update, hcache, hnle]⟩
  · intro hsmall
    have : ¬ accounts.length > maxAccountsForRoleLoading := by omega
    simp [startLoadingRoles, this]
  · simp [enterSelectAccount, hfind, hnl]

/-- C8, witnessed on the 101-account list and the two-account controller. -/
theorem C8_witness :
    (bigAccounts.length > maxAccountsForRoleLoading →
        startLoadingRoles "tok-abc" bigAccounts = Cmd.none ∧
        (update enterModel (.fetchAccountsSuccess bigAccounts "") 0).2 =
          Cmd.none) ∧
    (bigAccounts.length ≤ maxAccountsForRoleLoading →
        startLoadingRoles "tok-abc" bigAccounts =
          Cmd.emit (.loadNextRole bigAccounts 0 "tok-abc")) ∧
    (enterSelectAccount enterModel "A").2 =
      Cmd.loadAccountRoles enterModel.accessToken
        (freshAccount "A" "111111111111").AccountID 0 :=
  C8_role_load_policy "tok-abc" bigAccounts enterModel "A" 0
    (freshAccount "A" "111111111111") 0 "" (by decide) rfl rfl rfl

/-! ## Claim C9 — credentials write is a single-section frame effect -/

/-- C9: after WriteCredentialsWithProfile, the named profile section carries
the given access key id, secret access key, session token and region, and
every other section of the credentials file is exactly what it was in the
prior file content. -/
theorem C9_write_credentials_frame (prior : Option IniFile)
    (accessKeyID secretAccessKey sessionToken region profileName : String)
    (hst : sessionToken ≠ "") :
    iniGet (writeCredentialsWithProfile prior accessKeyID secretAccessKey
        sessionToken region profileName) profileName "aws_access_key_id" =
      accessKeyID ∧
    iniGet (writeCredentialsWithProfile prior accessKeyID secretAccessKey
        sessionToken region profileName) profileName "aws_secret_access_key" =
      secretAccessKey ∧
    iniGet (writeCredentialsWithProfile prior accessKeyID secretAccessKey
        sessionToken region profileName) profileName "aws_session_token" =
      sessionToken ∧
    iniGet (writeCredentialsWithProfile prior accessKeyID secretAccessKey
        sessionToken region profileName) profileName "region" = region ∧
    ∀ s, s ≠ profileName →
      iniGetSection (writeCredentialsWithProfile prior accessKeyID
        secretAccessKey sessionToken region profileName) s =
      iniGetSection (prior.getD []) s := by
  have hsec : iniGetSection (writeCredentialsWithProfile prior accessKeyID
      secretAccessKey sessionToken region profileName) profileName =
      some ⟨profileName,
        credentialKeys
          (((iniGetSection (prior.getD []) profileName).map
            IniSection.keys).getD [])
          accessKeyID secretAccessKey sessionToken region⟩ := by
    unfold writeCredentialsWithProfile
    exact iniGetSection_withSection_self _ _ _
  have hkeys : credentialKeys
      (((iniGetSection (prior.getD []) profileName).map
        IniSection.keys).getD [])
      accessKeyID secretAccessKey sessionToken region =
      setKey (setKey (setKey (setKey
        (((iniGetSection (prior.getD []) profileName).map
          IniSection.keys).getD [])
        "aws_access_key_id" accessKeyID)
        "aws_secret_access_key" secretAccessKey)
        "aws_session_token" sessionToken)
        "region" region := by
    simp [credentialKeys, hst]
  refine ⟨?_, ?_, ?_, ?_, ?_⟩
  · simp only [iniGet, hsec, sectionGet, hkeys]
    rw [setKey_find_ne _ _ _ _ (by decide), setKey_find_ne _ _ _ _ (by decide),
      setKey_find_ne _ _ _ _ (by decide), setKey_find_self]
  · simp only [iniGet, hsec, sectionGet, hkeys]
    rw [setKey_find_ne _ _ _ _ (by decide), setKey_find_ne _ _ _ _ (by decide),
      setKey_find_self]
  · simp only [iniGet, hsec, sectionGet, hkeys]
    rw [setKey_find_ne _ _ _ _ (by decide), setKey_find_self]
  · simp only [iniGet, hsec, sectionGet, hkeys]
    rw [setKey_find_self]
  · intro s hs
    unfold writeCredentialsWithProfile
    exact iniGetSection_withSection_ne _ _ _ s hs

/-- A prior credentials file holding two unrelated sections. -/
def c9PriorCreds : IniFile :=
  [⟨"other", [("aws_access_key_id", "OLDKEY"), ("region", "us-east-1")]⟩,
   ⟨"default", [("aws_access_key_id", "STALE")]⟩]

/-- C9, witnessed on a concrete prior file: the written section holds the
four values and the untouched `other` section is preserved verbatim. -/
theorem C9_witness :
    iniGet (writeCredentialsWithProfile (some c9PriorCreds) "AKIAEXAMPLE"
        "ws3cret" "IQoToken" "eu-west-1" "default") "default"
        "aws_access_key_id" = "AKIAEXAMPLE" ∧
    iniGet (writeCredentialsWithProfile (some c9PriorCreds) "AKIAEXAMPLE"
        "ws3cret" "IQoToken" "eu-west-1" "default") "default"
        "aws_secret_access_key" = "ws3cret" ∧
    iniGet (writeCredentialsWithProfile (some c9PriorCreds) "AKIAEXAMPLE"
        "ws3cret" "IQoToken" "eu-west-1" "default") "default"
        "aws_session_token" = "IQoToken" ∧
    iniGet (writeCredentialsWithProfile (some c9PriorCreds) "AKIAEXAMPLE"
        "ws3cret" "IQoToken" "eu-west-1" "default") "default" "region" =
      "eu-west-1" ∧
    iniGetSection (writeCredentialsWithProfile (some c9PriorCreds)
        "AKIAEXAMPLE" "ws3cret" "IQoToken" "eu-west-1" "default") "other" =
      iniGetSection ((some c9PriorCreds).getD []) "other" := by
  have h := C9_write_credentials_frame (some c9PriorCreds) "AKIAEXAMPLE"
    "ws3cret" "IQoToken" "eu-west-1" "default" (by decide)
  exact ⟨h.1, h.2.1, h.2.2.1, h.2.2.2.1, h.2.2.2.2 "other" (by decide)⟩

/-! ## Claim C10 — quitting the TUI clears the token cache -/

/-- The profile selected in the C10 scenario. -/
def c10Profile : SSOProfile :=
  ⟨"acme", "https://acme.awsapps.com/start", "eu-north-1", "eu-north-1"⟩

/-- A TUI session with a profile selected and no account yet. -/
def c10Model : Model :=
  { state := .stateSelectAccount, selectedSSO := some c10Profile }

/-- A TUI session after an account has been selected. -/
def c10ModelAfter : Model :=
  { state := .stateSelectRole, selectedSSO := some c10Profile,
    selectedAcc := some (freshAccount "A" "111111111111") }

/-- C10: quitting via ctrl+c or q with a profile selected but no account
overwrites the profile's cached token entry with an empty access token and
the current instant as expiry, after which LoadToken returns absent;
quitting after an account has been selected leaves the token file
untouched. -/
theorem C10_quit_token_effects (m m₂ : Model) (sso : SSOProfile)
    (acc : Account) (tokens : Option TokensFile) (now now' : Nat)
    (hsso : m.selectedSSO = some sso) (hacc : m.selectedAcc = none)
    (hstate : ¬(m.state = .stateAddSSO ∨ m.state = .stateEditSSO ∨
      m.state = .stateDeleteConfirm))
    (hacc₂ : m₂.selectedAcc = some acc) :
    ctrlCTokenEffect m tokens now = some (saveToken tokens sso.StartURL "" now) ∧
    qTokenEffect m tokens now = some (saveToken tokens sso.StartURL "" now) ∧
    ((saveToken tokens sso.StartURL "" now).find?
        (fun s => s.name = sso.StartURL)).map
        (fun s => (s.access_token, s.expires_at)) =
      some ("", some (now / nsPerSec)) ∧
    loadToken (some (saveToken tokens sso.StartURL "" now)) sso.StartURL now' =
      none ∧
    ctrlCTokenEffect m₂ tokens now = tokens ∧
    qTokenEffect m₂ tokens now = tokens := by
  obtain ⟨nm, hfind⟩ := saveToken_find tokens sso.StartURL "" now
  have hkeep : ctrlCTokenEffect m₂ tokens now = tokens := by
    cases hm : m₂.selectedSSO <;> simp [ctrlCTokenEffect, hm, hacc₂]
  refine ⟨?_, ?_, ?_, ?_, hkeep, ?_⟩
  · simp [ctrlCTokenEffect, hsso, hacc]
  · simp [qTokenEffect, hstate, ctrlCTokenEffect, hsso, hacc]
  · rw [hfind]
    rfl
  · simp [loadToken, hfind]
  · by_cases hq : m₂.state = .stateAddSSO ∨ m₂.state = .stateEditSSO ∨
        m₂.state = .stateDeleteConfirm
    · simp [qTokenEffect, hq]
    · simp [qTokenEffect, hq, hkeep]

/-- C10, witnessed on the concrete acme session with an empty token file. -/
theorem C10_witness :
    ctrlCTokenEffect c10Model none 5 =
      some (saveToken none c10Profile.StartURL "" 5) ∧
    qTokenEffect c10Model none 5 =
      some (saveToken none c10Profile.StartURL "" 5) ∧
    ((saveToken none c10Profile.StartURL "" 5).find?
        (fun s => s.name = c10Profile.StartURL)).map
        (fun s => (s.access_token, s.expires_at)) = some ("", some (5 / nsPerSec)) ∧
    loadToken (some (saveToken none c10Profile.StartURL "" 5))
        c10Profile.StartURL 7 = none ∧
    ctrlCTokenEffect c10ModelAfter none 5 = none ∧
    qTokenEffect c10ModelAfter none 5 = none :=
  C10_quit_token_effects c10Model c10ModelAfter c10Profile
    (freshAccount "A" "111111111111") none 5 7 rfl rfl (by decide) rfl

end Awsesh
